import Mathlib

/-!
Verification of the firefly-evmconnect confirmation reconciler and receipt
probe. The `TransactionReceipt` path is embedded from
`src/internal/ethereum/get_receipt.go`. The reconciler core
(`buildConfirmationList`, `validateExistingConfirmations`, the gap-fill
loop) is not present under `src/` (only its declarations in
`confirmation_reconciler.go` and its test file are), so those definitions
are modelled from the specification, as marked on each of them.
-/

/-- The minimal block record (`ffcapi.MinimalBlockInfo`): a block number,
the block's own hash and the hash of its parent. Hashes are opaque
strings, as in the Go code. -/
structure MinimalBlockInfo where
  blockNumber : Nat
  blockHash : String
  parentHash : String
deriving DecidableEq, Repr

/-- Result of a reconcile / buildConfirmationList call, with the field
names used by the spec (`confirmations`, `newFork`, `confirmed`,
`targetConfirmationCount`) and exercised by the repository's tests. -/
structure ConfirmationUpdateResult where
  confirmations : List MinimalBlockInfo
  newFork : Bool
  confirmed : Bool
  targetConfirmationCount : Nat
deriving DecidableEq, Repr

/-- Outcome of the block fetcher for one block number (spec 4.A): a
block record, a null body (`NotFound`), or a transport error. -/
inductive FetchResult where
  | found (b : MinimalBlockInfo)
  | notFound
  | rpcError (msg : String)
deriving DecidableEq, Repr

/-- The classified fatal errors of the reconciler: the spec's tags
(section 6) plus the two fatal conditions the repository's tests pin
down inside the queue build — a block unavailable during gap-fill
(FF23011, TestCompareAndUpdateConfirmationQueue_NilBlockInfo) and a
failure to chain the queue together (the commented-out
TestCheckAndFillInGap tests). FF23062, raised when the canonical chain
does not reach the transaction block, is `chainNotReady`. -/
inductive ReconcileError where
  | txNotFound
  | chainNotReady
  | invalidExistingConfirmations
  | fetchFailure (msg : String)
  | blockNotAvailable
  | buildFailure
  | cancelled
deriving DecidableEq, Repr
/-- Adjacency of two blocks in a confirmation list or in the canonical
snapshot (spec section 3): the second block's number is the first's
plus one and the second's parent hash is the first's block hash. -/
def chainAdj (a b : MinimalBlockInfo) : Prop :=
  b.blockNumber = a.blockNumber + 1 ∧ b.parentHash = a.blockHash

instance (a b : MinimalBlockInfo) : Decidable (chainAdj a b) :=
  decidable_of_iff (b.blockNumber = a.blockNumber + 1 ∧ b.parentHash = a.blockHash) Iff.rfl

/-- A list of blocks is a well-formed chain segment when every adjacent
pair satisfies `chainAdj` (spec section 3 invariant). -/
def chainWellFormed (l : List MinimalBlockInfo) : Prop :=
  List.Chain' chainAdj l

instance instDecChainWellFormed : (l : List MinimalBlockInfo) → Decidable (chainWellFormed l)
  | [] => .isTrue List.chain'_nil
  | [_] => .isTrue (List.chain'_singleton _)
  | a :: b :: rest =>
    haveI : Decidable (chainWellFormed (b :: rest)) := instDecChainWellFormed (b :: rest)
    decidable_of_iff (chainAdj a b ∧ chainWellFormed (b :: rest)) List.chain'_cons.symm

/-- Modelled from the spec: the existing-list validator
`validateExistingConfirmations` (spec 4.C), whose Go implementation is
not under `src/`. Walking the caller's list in order, it rejects a gap
(next number not previous + 1), a non-monotone step (next number at most
the previous) or a broken parent link (next parent hash differing from
the previous block hash); the empty list and single-element lists are
accepted. -/
def validateExistingConfirmations : List MinimalBlockInfo → Except ReconcileError Unit
  | [] => .ok ()
  | [_] => .ok ()
  | a :: b :: rest =>
    if b.blockNumber ≠ a.blockNumber + 1 then .error .invalidExistingConfirmations
    else if b.blockNumber ≤ a.blockNumber then .error .invalidExistingConfirmations
    else if b.parentHash ≠ a.blockHash then .error .invalidExistingConfirmations
    else validateExistingConfirmations (b :: rest)

/-- Modelled from the spec: the canonical-snapshot lookup `getByNumber`
(spec 4.B), an order-respecting walk for the first entry carrying the
requested block number. -/
def getByNumber (l : List MinimalBlockInfo) (n : Nat) : Option MinimalBlockInfo :=
  (l.dropWhile fun b => b.blockNumber != n).head?

/-- Modelled from the spec: step 3 of the reconciler. Starting at the
transaction block's number, walk the snapshot forward collecting entries
until `targetDepth + 1` entries are in hand or the snapshot is
exhausted. -/
def snapshotWindow (snapshot : List MinimalBlockInfo) (n : Nat) (targetDepth : Nat) :
    List MinimalBlockInfo :=
  (snapshot.dropWhile fun b => b.blockNumber != n).take (targetDepth + 1)

/-- Modelled from the spec (4.C) and the repository's tests: a walk
verifying that the candidate run `rest` extends `base` block by block —
each entry's number is its predecessor's plus one and its parent hash
is the predecessor's block hash. Used to decide whether the caller's
list can be reused below the canonical chain's coverage
(TestCompareAndUpdateConfirmationQueue_AlreadyConfirmable). -/
def chainVerified (base : MinimalBlockInfo) : List MinimalBlockInfo → Bool
  | [] => true
  | b :: rest =>
    (b.blockNumber == base.blockNumber + 1 && b.parentHash == base.blockHash)
      && chainVerified b rest

/-- The fork test. A mismatch exists when some block of the returned
list differs, at the same block number, from an entry of the
caller-supplied list in block hash or in parent hash. The parent-hash
comparison is pinned by the repository's tests
(TestCompareAndUpdateConfirmationQueue_CorruptedExistingConfirmation*),
which assert NewFork on a broken parent link even though every block
hash matches. -/
def hasForkMismatch (returned existing : List MinimalBlockInfo) : Bool :=
  returned.any fun b => existing.any fun e =>
    b.blockNumber == e.blockNumber &&
      (b.blockHash != e.blockHash || b.parentHash != e.parentHash)

/-- Whether the caller's list can be trusted wholesale below the
canonical chain: it must start at the transaction block, chain-verify
throughout, already reach the target depth, and overlap the canonical
chain's first block with a matching hash. Pinned by
TestCompareAndUpdateConfirmationQueue_AlreadyConfirmable (no fetch,
reuse) against _AlreadyConfirmableConnectable and
_HasSufficientConfirmationsButNoOverlapWithCanonicalChain (no
same-number hash overlap: the gap is refetched). -/
def trustedExisting (existing snapshot : List MinimalBlockInfo)
    (txBlock : MinimalBlockInfo) (targetDepth : Nat) : Bool :=
  (existing.head? == some txBlock) && chainVerified txBlock (existing.drop 1)
    && decide (targetDepth + 1 ≤ existing.length)
    && (match snapshot.head? with
        | some firstCanonical =>
          match getByNumber existing firstCanonical.blockNumber with
          | some e => e.blockHash == firstCanonical.blockHash
          | none => false
        | none => false)

/-- The slice of the canonical snapshot that can serve as
confirmations when the snapshot starts above the transaction block:
its entries with numbers above the transaction block and at most the
target number (transaction block number plus target depth). -/
def canonicalRange (snapshot : List MinimalBlockInfo) (txBlock : MinimalBlockInfo)
    (targetDepth : Nat) : List MinimalBlockInfo :=
  (snapshot.dropWhile fun b => decide (b.blockNumber ≤ txBlock.blockNumber)).takeWhile
    fun b => decide (b.blockNumber ≤ txBlock.blockNumber + targetDepth)

/-- How many block numbers the gap-fill must cover: from the
transaction block up to just below the canonical range's first block,
or up to the target number when the canonical range is empty. -/
def gapFuel (snapshot : List MinimalBlockInfo) (txBlock : MinimalBlockInfo)
    (targetDepth : Nat) : Nat :=
  match (canonicalRange snapshot txBlock targetDepth).head? with
  | some c => c.blockNumber - 1 - txBlock.blockNumber
  | none => targetDepth

/-- The gap-fill loop `checkAndFillInGap`, whose Go implementation is
not under `src/`; modelled from the repository's tests. It walks the
gap from the top number (transaction block number plus `fuel`)
downward, fetching each block: a transport error is fatal with the
propagated message, a null block is fatal with the block-not-available
error (FF23011, TestCompareAndUpdateConfirmationQueue_NilBlockInfo and
_FailedToFetchBlockInfo), and every fetched block must parent-link to
the block above it (`above` at the top), else the build fails (the
commented-out TestCheckAndFillInGap tests). When the fetched block's
parent hash meets a chain-verified prefix of the caller's list rooted
at the transaction block, the walk stops and reuses that prefix
(TestCompareAndUpdateConfirmationQueue_ExistingConfirmationsTooDistant
fetches 105..102 and reuses the caller's 101). The result lists the
gap blocks in ascending order. -/
def checkAndFillInGap (fetch : Nat → FetchResult) (existing : List MinimalBlockInfo)
    (txBlock : MinimalBlockInfo) :
    Nat → Option MinimalBlockInfo → Except ReconcileError (List MinimalBlockInfo)
  | 0, above =>
    match above with
    | some a => if a.parentHash = txBlock.blockHash then .ok [] else .error .buildFailure
    | none => .ok []
  | fuel + 1, above =>
    match fetch (txBlock.blockNumber + fuel + 1) with
    | .rpcError m => .error (.fetchFailure m)
    | .notFound => .error .blockNotAvailable
    | .found b =>
      let linksAbove : Bool :=
        match above with
        | some a => a.parentHash == b.blockHash
        | none => true
      if linksAbove then
        if fuel = 0 then
          if b.parentHash = txBlock.blockHash then .ok [b] else .error .buildFailure
        else
          let seg := (existing.drop 1).take fuel
          let connected : Bool :=
            (existing.head? == some txBlock) && chainVerified txBlock seg
              && (seg.length == fuel)
              && (match seg.getLast? with
                  | some e => e.blockHash == b.parentHash
                  | none => false)
          if connected then .ok (seg ++ [b])
          else
            match checkAndFillInGap fetch existing txBlock fuel (some b) with
            | .error e => .error e
            | .ok rest => .ok (rest ++ [b])
      else .error .buildFailure

/-- The reconciler core `buildConfirmationList`, whose Go
implementation is not under `src/`; modelled from the specification
where the repository's tests agree with it and from the tests where
they pin different behavior. An empty canonical chain, or one whose
last block is below the transaction block, fails with FF23062
(TestCompareAndUpdateConfirmationQueue_EmptyChain, _ChainTooShort).
When the canonical chain covers the transaction block's number, the
queue is the canonical window from that number (never fetching past
the canonical tip, _NilConfirmationMapUnconfirmed), unless the entry
there disagrees with the transaction block, in which case a one- or
two-element early result is returned (spec 4.F step 2,
TestReconcileConfirmationsForTransaction_TxBlockNotInCanonicalChain).
When the canonical chain starts above the transaction block, the queue
is the transaction block, the gap-fill result, and the canonical range
— or the caller's own verified list when `trustedExisting` holds. The
caller's list is never validated up front: an invalid list yields a
fork signal, not an error
(_CorruptedExistingConfirmationDoNotAffectConfirmations, spec
scenario 4). `confirmed` follows the depth rule throughout; a zero
target returns the transaction block alone, confirmed. -/
def buildConfirmationList (existing : List MinimalBlockInfo) (txBlock : MinimalBlockInfo)
    (targetDepth : Nat) (snapshot : List MinimalBlockInfo) (fetch : Nat → FetchResult) :
    Except ReconcileError ConfirmationUpdateResult :=
  match snapshot.getLast? with
  | none => .error .chainNotReady
  | some lastBlock =>
    match getByNumber snapshot txBlock.blockNumber with
    | some entry =>
      if entry = txBlock then
        .ok { confirmations := snapshotWindow snapshot txBlock.blockNumber targetDepth,
              newFork :=
                hasForkMismatch (snapshotWindow snapshot txBlock.blockNumber targetDepth)
                  existing,
              confirmed :=
                decide ((snapshotWindow snapshot txBlock.blockNumber targetDepth).length
                  ≥ targetDepth + 1),
              targetConfirmationCount := targetDepth }
      else
        if targetDepth == 0 then
          .ok { confirmations := [txBlock], newFork := false, confirmed := true,
                targetConfirmationCount := targetDepth }
        else
          match getByNumber snapshot (txBlock.blockNumber + 1) with
          | some next =>
            if next.parentHash = txBlock.blockHash then
              .ok { confirmations := [txBlock, next], newFork := false,
                    confirmed := false, targetConfirmationCount := targetDepth }
            else
              .ok { confirmations := [txBlock], newFork := false,
                    confirmed := false, targetConfirmationCount := targetDepth }
          | none =>
            .ok { confirmations := [txBlock], newFork := false,
                  confirmed := false, targetConfirmationCount := targetDepth }
    | none =>
      if lastBlock.blockNumber < txBlock.blockNumber then .error .chainNotReady
      else if trustedExisting existing snapshot txBlock targetDepth then
        .ok { confirmations := existing.take (targetDepth + 1),
              newFork := hasForkMismatch (existing.take (targetDepth + 1)) existing,
              confirmed :=
                decide ((existing.take (targetDepth + 1)).length ≥ targetDepth + 1),
              targetConfirmationCount := targetDepth }
      else
        match checkAndFillInGap fetch existing txBlock
            (gapFuel snapshot txBlock targetDepth)
            (canonicalRange snapshot txBlock targetDepth).head? with
        | .error e => .error e
        | .ok filled =>
          .ok { confirmations :=
                  txBlock :: filled ++ canonicalRange snapshot txBlock targetDepth,
                newFork :=
                  hasForkMismatch
                    (txBlock :: filled ++ canonicalRange snapshot txBlock targetDepth)
                    existing,
                confirmed :=
                  decide ((txBlock :: filled
                    ++ canonicalRange snapshot txBlock targetDepth).length
                      ≥ targetDepth + 1),
                targetConfirmationCount := targetDepth }

/-- An honest block fetcher returns, for each requested number, a block
carrying that number (the block fetcher's contract in spec 4.A). -/
def FetchHonest (fetch : Nat → FetchResult) : Prop :=
  ∀ n b, fetch n = .found b → b.blockNumber = n

/-- Go's `big.Int.Int64()` as executed by the gc toolchain: the low 64
bits of the integer read back as a signed two's-complement value. Used
in `get_receipt.go` on the receipt's `status` and `transactionIndex`. -/
def int64OfInt (x : Int) : Int :=
  (x + 2 ^ 63) % 2 ^ 64 - 2 ^ 63

/-- Left-pad a decimal digit string with zeros to the requested width,
as Go's `%.12d` / `%.6d` precision does for a non-negative integer. -/
def padZeros (width : Nat) (s : String) : String :=
  String.mk (List.replicate (width - s.length) '0') ++ s

/-- Decimal rendering with a precision, as Go's `fmt` verb `%.Nd`: at
least `prec` digits, zero-padded, sign in front for negatives. -/
def decPad (prec : Nat) (x : Int) : String :=
  if x < 0 then "-" ++ padZeros prec (Nat.repr x.natAbs)
  else padZeros prec (Nat.repr x.natAbs)

/-- `ProtocolIDForReceipt` from `get_receipt.go`:
the zero-padded twelve-digit block number, a slash, and the
zero-padded six-digit transaction index. -/
def ProtocolIDForReceipt (blockNumber transactionIndex : Int) : String :=
  decPad 12 blockNumber ++ "/" ++ decPad 6 transactionIndex

/-- The receipt as decoded from JSON-RPC (`txReceiptJSONRPC` in
`get_receipt.go`). Pointer-typed hex integers become `Option Int`,
addresses and hashes opaque strings; the logs are dropped before use by
the code under proof. -/
structure TxReceiptJSONRPC where
  blockHash : String
  blockNumber : Option Int
  contractAddress : Option String
  cumulativeGasUsed : Option Int
  fromAddress : Option String
  gasUsed : Option Int
  status : Option Int
  toAddress : Option String
  transactionHash : String
  transactionIndex : Option Int
deriving DecidableEq, Repr

/-- The stored extra-info projection of the receipt (`receiptExtraInfo`
in `get_receipt.go`). -/
structure ReceiptExtraInfo where
  contractAddress : Option String
  cumulativeGasUsed : Option Int
  fromAddress : Option String
  toAddress : Option String
  gasUsed : Option Int
  status : Option Int
deriving DecidableEq, Repr

/-- The connector's receipt response
(`ffcapi.TransactionReceiptResponse` as populated by
`TransactionReceipt`). -/
structure TransactionReceiptResponse where
  blockNumber : Option Int
  transactionIndex : Int
  blockHash : String
  success : Bool
  protocolID : String
  extraInfo : ReceiptExtraInfo
deriving DecidableEq, Repr

/-- Outcome of one JSON-RPC call: a transport failure, or a body that is
either null or a decoded value. -/
inductive RPCCallResult (α : Type) where
  | success (result : Option α)
  | failure (msg : String)
deriving DecidableEq, Repr

/-- The `ffcapi.ErrorReason` values `TransactionReceipt` can return: the
empty reason, or `ffcapi.ErrorReasonNotFound`. -/
inductive ErrorReason where
  | empty
  | notFound
deriving DecidableEq, Repr

/-- The error values `TransactionReceipt` can return: the propagated RPC
transport error, or the `MsgReceiptNotAvailable` message naming the
transaction hash. -/
inductive ConnectorError where
  | rpcError (msg : String)
  | receiptNotAvailable (txHash : String)
deriving DecidableEq, Repr

/-- `TransactionReceipt` from `get_receipt.go`, with the
`eth_getTransactionReceipt` call's outcome passed in explicitly. An RPC
failure is propagated with the empty reason; a null body yields the
NotFound reason with the receipt-not-available error; otherwise the
response is assembled: `Success` is true when `status` is non-nil and
its `Int64()` reading is positive, a nil `transactionIndex` is read as
zero, and the protocol id is formatted from the block number and that
index. A nil block number is not given a special rendering here, so its
protocol id component is formatted from zero. -/
def TransactionReceipt (txHash : String) (rpcResult : RPCCallResult TxReceiptJSONRPC) :
    Option TransactionReceiptResponse × ErrorReason × Option ConnectorError :=
  match rpcResult with
  | .failure m => (none, .empty, some (.rpcError m))
  | .success none => (none, .notFound, some (.receiptNotAvailable txHash))
  | .success (some r) =>
    let isSuccess : Bool :=
      match r.status with
      | some s => decide (int64OfInt s > 0)
      | none => false
    let txIndex : Int :=
      match r.transactionIndex with
      | some ti => int64OfInt ti
      | none => 0
    (some {
        blockNumber := r.blockNumber
        transactionIndex := txIndex
        blockHash := r.blockHash
        success := isSuccess
        protocolID := ProtocolIDForReceipt (r.blockNumber.getD 0) txIndex
        extraInfo := {
          contractAddress := r.contractAddress
          cumulativeGasUsed := r.cumulativeGasUsed
          fromAddress := r.fromAddress
          toAddress := r.toAddress
          gasUsed := r.gasUsed
          status := r.status } },
      .empty, none)
theorem validate_total (l : List MinimalBlockInfo) :
    validateExistingConfirmations l = .ok () ∨
      validateExistingConfirmations l = .error .invalidExistingConfirmations := by
  induction l with
  | nil => left; rfl
  | cons a t ih =>
    cases t with
    | nil => left; rfl
    | cons b rest =>
      simp only [validateExistingConfirmations]
      split_ifs <;> first | (right; rfl) | exact ih

theorem validate_ok_iff (l : List MinimalBlockInfo) :
    validateExistingConfirmations l = .ok () ↔ chainWellFormed l := by
  induction l with
  | nil => simp [validateExistingConfirmations, chainWellFormed]
  | cons a t ih =>
    cases t with
    | nil => simp [validateExistingConfirmations, chainWellFormed]
    | cons b rest =>
      unfold chainWellFormed
      rw [List.chain'_cons]
      by_cases h1 : b.blockNumber = a.blockNumber + 1
      · by_cases h3 : b.parentHash = a.blockHash
        · have h2 : ¬ b.blockNumber ≤ a.blockNumber := by omega
          have hred : validateExistingConfirmations (a :: b :: rest)
              = validateExistingConfirmations (b :: rest) := by
            simp only [validateExistingConfirmations]
            rw [if_neg (not_not.mpr h1), if_neg h2, if_neg (not_not.mpr h3)]
          rw [hred, ih]
          simp [chainAdj, h1, h3, chainWellFormed]
        · have hred : validateExistingConfirmations (a :: b :: rest)
              = .error .invalidExistingConfirmations := by
            simp only [validateExistingConfirmations]
            rw [if_neg (not_not.mpr h1), if_neg (by omega : ¬ b.blockNumber ≤ a.blockNumber),
                if_pos h3]
          rw [hred]
          simp [chainAdj, h3]
      · have hred : validateExistingConfirmations (a :: b :: rest)
          = .error .invalidExistingConfirmations := by
          simp only [validateExistingConfirmations]
          rw [if_pos h1]
        rw [hred]
        simp [chainAdj, h1]

theorem validate_err_iff (l : List MinimalBlockInfo) :
    validateExistingConfirmations l = .error .invalidExistingConfirmations ↔
      ¬ chainWellFormed l := by
  rcases validate_total l with h | h
  · rw [h]
    simp [(validate_ok_iff l).mp h]
  · rw [h]
    simp only [true_iff]
    intro hwf
    have hok := (validate_ok_iff l).mpr hwf
    rw [h] at hok
    exact Except.noConfusion hok

theorem getByNumber_spec (l : List MinimalBlockInfo) (n : Nat) (e : MinimalBlockInfo)
    (h : getByNumber l n = some e) :
    e.blockNumber = n ∧ ∃ t, l.dropWhile (fun b => b.blockNumber != n) = e :: t := by
  unfold getByNumber at h
  obtain ⟨t, ht⟩ := List.head?_eq_some_iff.mp h
  have hp := List.head?_dropWhile_not (fun b => b.blockNumber != n) l
  rw [ht] at hp
  simp only [List.head?_cons] at hp
  refine ⟨?_, t, ht⟩
  simpa using hp

theorem getByNumber_nonEmpty (l : List MinimalBlockInfo) (n : Nat) (e : MinimalBlockInfo)
    (h : getByNumber l n = some e) : l.isEmpty = false := by
  cases l with
  | nil => simp [getByNumber] at h
  | cons a t => rfl

theorem snapshotWindow_eq (snapshot : List MinimalBlockInfo) (txBlock : MinimalBlockInfo)
    (d : Nat) (h : getByNumber snapshot txBlock.blockNumber = some txBlock) :
    ∃ t : List MinimalBlockInfo,
      snapshotWindow snapshot txBlock.blockNumber d = txBlock :: t.take d := by
  obtain ⟨-, t, ht⟩ := getByNumber_spec snapshot txBlock.blockNumber txBlock h
  refine ⟨t, ?_⟩
  simp [snapshotWindow, ht]

theorem snapshotWindow_wellFormed (snapshot : List MinimalBlockInfo) (n d : Nat)
    (h : chainWellFormed snapshot) : chainWellFormed (snapshotWindow snapshot n d) :=
  (h.suffix (List.dropWhile_suffix _)).take _

theorem chainWellFormed_iff_get (l : List MinimalBlockInfo) :
    chainWellFormed l ↔
      ∀ i (h : i + 1 < l.length),
        (l.get ⟨i + 1, h⟩).blockNumber
            = (l.get ⟨i, Nat.lt_of_succ_lt h⟩).blockNumber + 1 ∧
        (l.get ⟨i + 1, h⟩).parentHash
            = (l.get ⟨i, Nat.lt_of_succ_lt h⟩).blockHash := by
  unfold chainWellFormed
  rw [List.chain'_iff_get]
  constructor
  · intro h i hi
    exact h i (by omega)
  · intro h i hi
    exact h i (by omega)

theorem hasForkMismatch_iff (returned existing : List MinimalBlockInfo) :
    hasForkMismatch returned existing = true ↔
      ∃ b ∈ returned, ∃ e ∈ existing,
        b.blockNumber = e.blockNumber ∧
          (b.blockHash ≠ e.blockHash ∨ b.parentHash ≠ e.parentHash) := by
  unfold hasForkMismatch
  simp [List.any_eq_true, Bool.and_eq_true, Bool.or_eq_true, bne_iff_ne, beq_iff_eq]

/-- C8: the existing-list validator returns an error exactly when some
adjacent pair violates adjacency — a gap (next number not previous plus
one), a non-monotone step (next number at most the previous), or a
broken parent link — and it accepts the empty list and every
single-element list. -/
theorem c8_validator_characterization :
    (∀ l : List MinimalBlockInfo,
      validateExistingConfirmations l = .error .invalidExistingConfirmations ↔
        ∃ i, ∃ h : i + 1 < l.length,
          (l.get ⟨i + 1, h⟩).blockNumber
              ≠ (l.get ⟨i, Nat.lt_of_succ_lt h⟩).blockNumber + 1 ∨
          (l.get ⟨i + 1, h⟩).blockNumber
              ≤ (l.get ⟨i, Nat.lt_of_succ_lt h⟩).blockNumber ∨
          (l.get ⟨i + 1, h⟩).parentHash
              ≠ (l.get ⟨i, Nat.lt_of_succ_lt h⟩).blockHash) ∧
    validateExistingConfirmations ([] : List MinimalBlockInfo) = .ok () ∧
    (∀ b : MinimalBlockInfo, validateExistingConfirmations [b] = .ok ()) := by
  refine ⟨fun l => ?_, rfl, fun b => rfl⟩
  rw [validate_err_iff, chainWellFormed_iff_get]
  constructor
  · intro hnot
    by_contra hne
    push_neg at hne
    apply hnot
    intro i h
    obtain ⟨h1, h2, h3⟩ := hne i h
    exact ⟨by omega, h3⟩
  · intro ⟨i, h, hviol⟩ hall
    obtain ⟨hnum, hpar⟩ := hall i h
    rcases hviol with hv | hv | hv
    · exact hv hnum
    · omega
    · exact hv hpar

/-- C9: the receipt probe returns the NotFound reason with the
receipt-not-available error when the `eth_getTransactionReceipt` call
answers null, and propagates an RPC transport error as-is with the
empty reason; in both failure cases no receipt response is returned. -/
theorem c9_receipt_probe_errors :
    (∀ (txHash m : String),
      TransactionReceipt txHash (.failure m)
        = (none, .empty, some (.rpcError m))) ∧
    (∀ txHash : String,
      TransactionReceipt txHash (.success none)
        = (none, .notFound, some (.receiptNotAvailable txHash))) :=
  ⟨fun _ _ => rfl, fun _ => rfl⟩

/-- C10 (amended): for every receipt response, `Success` is true exactly
when the RPC receipt's status field is present and its value read as a
signed 64-bit integer (`big.Int.Int64`, the low 64 bits in two's
complement) is greater than zero; and a missing transactionIndex is
reported as index zero both in the `TransactionIndex` field and in the
`ProtocolID`. -/
theorem c10_receipt_success_and_index
    (txHash : String) (r : TxReceiptJSONRPC) (resp : TransactionReceiptResponse)
    (h : (TransactionReceipt txHash (.success (some r))).1 = some resp) :
    (resp.success = true ↔ ∃ s, r.status = some s ∧ int64OfInt s > 0) ∧
    (r.transactionIndex = none →
      resp.transactionIndex = 0 ∧
      resp.protocolID = ProtocolIDForReceipt (r.blockNumber.getD 0) 0) := by
  rw [TransactionReceipt] at h
  dsimp only at h
  rw [Option.some_inj] at h
  subst h
  constructor
  · cases hs : r.status with
    | none => simp [hs]
    | some s => simp [hs, decide_eq_true_eq]
  · intro hti
    rw [hti]
    exact ⟨rfl, rfl⟩

theorem c10_witness :
    (true = true ↔ ∃ s, (some (1 : Int) : Option Int) = some s ∧ int64OfInt s > 0) ∧
    ((none : Option Int) = none →
      (0 : Int) = 0 ∧
      ProtocolIDForReceipt 1977 0 = ProtocolIDForReceipt ((some (1977 : Int)).getD 0) 0) :=
  c10_receipt_success_and_index "tx"
    { blockHash := "0xb", blockNumber := some 1977, contractAddress := none,
      cumulativeGasUsed := none, fromAddress := none, gasUsed := none,
      status := some 1, toAddress := none, transactionHash := "0xt",
      transactionIndex := none }
    { blockNumber := some 1977, transactionIndex := 0, blockHash := "0xb",
      success := true, protocolID := ProtocolIDForReceipt 1977 0,
      extraInfo := { contractAddress := none, cumulativeGasUsed := none,
                     fromAddress := none, toAddress := none, gasUsed := none,
                     status := some 1 } }
    rfl

/-- C10 counterexample: a receipt whose status field is present with
value two to the sixty-third — greater than zero — still yields
`Success` false, because the code reads the status through
`big.Int.Int64`, which wraps that value to a negative number; this
refutes the claim's unqualified "integer value greater than zero". -/
theorem c10_counterexample :
    ((TransactionReceipt "tx"
        (.success (some
          { blockHash := "0xb", blockNumber := some 1977, contractAddress := none,
            cumulativeGasUsed := none, fromAddress := none, gasUsed := none,
            status := some (2 ^ 63), toAddress := none, transactionHash := "0xt",
            transactionIndex := some 0 }))).1.map (fun resp => resp.success)
        = some false) ∧
    (2 : Int) ^ 63 > 0 :=
  ⟨rfl, by decide⟩

theorem chainVerified_chain : ∀ (l : List MinimalBlockInfo) (base : MinimalBlockInfo),
    chainVerified base l = true → List.Chain' chainAdj (base :: l)
  | [], base, _ => List.chain'_singleton base
  | b :: rest, base, h => by
    simp only [chainVerified, Bool.and_eq_true, beq_iff_eq] at h
    obtain ⟨⟨h1, h2⟩, h3⟩ := h
    rw [List.chain'_cons]
    exact ⟨⟨h1, h2⟩, chainVerified_chain rest b h3⟩

theorem chainVerified_getLast : ∀ (l : List MinimalBlockInfo) (base e : MinimalBlockInfo),
    chainVerified base l = true → l.getLast? = some e →
    e.blockNumber = base.blockNumber + l.length
  | [], _, _, _, hl => by simp at hl
  | b :: rest, base, e, h, hl => by
    simp only [chainVerified, Bool.and_eq_true, beq_iff_eq] at h
    obtain ⟨⟨h1, -⟩, h3⟩ := h
    cases rest with
    | nil =>
      simp only [List.getLast?_singleton, Option.some_inj] at hl
      subst hl
      simp [h1]
    | cons c cs =>
      have hrec := chainVerified_getLast (c :: cs) b e h3 (by simpa using hl)
      simp only [List.length_cons] at hrec ⊢
      omega

theorem canonicalRange_head (snapshot : List MinimalBlockInfo) (txBlock : MinimalBlockInfo)
    (d : Nat) (c : MinimalBlockInfo)
    (h : (canonicalRange snapshot txBlock d).head? = some c) :
    txBlock.blockNumber < c.blockNumber ∧ c.blockNumber ≤ txBlock.blockNumber + d := by
  unfold canonicalRange at h
  cases hD : snapshot.dropWhile (fun b => decide (b.blockNumber ≤ txBlock.blockNumber)) with
  | nil => rw [hD] at h; simp at h
  | cons x xs =>
    have hx := List.head?_dropWhile_not
      (fun b => decide (b.blockNumber ≤ txBlock.blockNumber)) snapshot
    rw [hD] at hx h
    simp only [List.head?_cons, decide_eq_false_iff_not, not_le] at hx
    rw [List.takeWhile_cons] at h
    by_cases hq : x.blockNumber ≤ txBlock.blockNumber + d
    · rw [if_pos (by simpa using hq)] at h
      rw [List.head?_cons, Option.some_inj] at h
      subst h
      exact ⟨hx, hq⟩
    · rw [if_neg (by simpa using hq)] at h
      simp at h

theorem canonicalRange_zero (snapshot : List MinimalBlockInfo) (txBlock : MinimalBlockInfo) :
    canonicalRange snapshot txBlock 0 = [] := by
  unfold canonicalRange
  cases hD : snapshot.dropWhile (fun b => decide (b.blockNumber ≤ txBlock.blockNumber)) with
  | nil => simp
  | cons x xs =>
    have hx := List.head?_dropWhile_not
      (fun b => decide (b.blockNumber ≤ txBlock.blockNumber)) snapshot
    rw [hD] at hx
    simp only [List.head?_cons, decide_eq_false_iff_not, not_le] at hx
    rw [List.takeWhile_cons, if_neg (by simpa using (by omega : ¬ x.blockNumber ≤ txBlock.blockNumber + 0))]

theorem canonicalRange_wellFormed (snapshot : List MinimalBlockInfo)
    (txBlock : MinimalBlockInfo) (d : Nat) (hsnap : chainWellFormed snapshot) :
    chainWellFormed (canonicalRange snapshot txBlock d) :=
  List.Chain'.prefix (hsnap.suffix (List.dropWhile_suffix _)) ( List.takeWhile_prefix _)

theorem getLast_of_getByNumber (l : List MinimalBlockInfo) (n : Nat) (e : MinimalBlockInfo)
    (h : getByNumber l n = some e) : ∃ x, l.getLast? = some x := by
  cases hx : l.getLast? with
  | some x => exact ⟨x, rfl⟩
  | none =>
    rw [List.getLast?_eq_none_iff] at hx
    subst hx
    simp [getByNumber] at h

theorem checkAndFillInGap_spec (fetch : Nat → FetchResult) (existing : List MinimalBlockInfo)
    (txBlock : MinimalBlockInfo) (hf : FetchHonest fetch) :
    ∀ (fuel : Nat) (above : Option MinimalBlockInfo) (filled : List MinimalBlockInfo),
      checkAndFillInGap fetch existing txBlock fuel above = .ok filled →
      List.Chain' chainAdj (txBlock :: filled) ∧
      ∃ lastE, (txBlock :: filled).getLast? = some lastE ∧
        lastE.blockNumber = txBlock.blockNumber + fuel ∧
        ∀ a, above = some a → a.parentHash = lastE.blockHash := by
  intro fuel
  induction fuel with
  | zero =>
    intro above filled h
    simp only [checkAndFillInGap] at h
    have hbase : filled = [] ∧ ∀ a, above = some a → a.parentHash = txBlock.blockHash := by
      cases above with
      | none =>
        dsimp only at h
        rw [Except.ok.injEq] at h
        exact ⟨h.symm, fun a ha => Option.noConfusion ha⟩
      | some a =>
        dsimp only at h
        by_cases hp : a.parentHash = txBlock.blockHash
        · rw [if_pos hp, Except.ok.injEq] at h
          exact ⟨h.symm, fun a2 ha2 => by cases ha2; exact hp⟩
        · rw [if_neg hp] at h
          exact Except.noConfusion h
    obtain ⟨rfl, hab⟩ := hbase
    exact ⟨List.chain'_singleton txBlock, txBlock, rfl, by omega, hab⟩
  | succ fuel ih =>
    intro above filled h
    simp only [checkAndFillInGap] at h
    cases hfr : fetch (txBlock.blockNumber + fuel + 1) with
    | rpcError m => rw [hfr] at h; exact Except.noConfusion h
    | notFound => rw [hfr] at h; exact Except.noConfusion h
    | found b =>
      rw [hfr] at h
      dsimp only at h
      have hnum : b.blockNumber = txBlock.blockNumber + fuel + 1 := hf _ b hfr
      obtain ⟨hab, h⟩ : (∀ a, above = some a → a.parentHash = b.blockHash) ∧
          (if fuel = 0 then
            if b.parentHash = txBlock.blockHash then Except.ok [b]
            else Except.error ReconcileError.buildFailure
          else
            if ((existing.head? == some txBlock)
                && chainVerified txBlock ((existing.drop 1).take fuel)
                && (((existing.drop 1).take fuel).length == fuel)
                && (match ((existing.drop 1).take fuel).getLast? with
                    | some e => e.blockHash == b.parentHash
                    | none => false)) = true then
              Except.ok ((existing.drop 1).take fuel ++ [b])
            else
              match checkAndFillInGap fetch existing txBlock fuel (some b) with
              | Except.error e => Except.error e
              | Except.ok rest => Except.ok (rest ++ [b])) = Except.ok filled := by
        cases above with
        | none =>
          dsimp only at h
          rw [if_pos rfl] at h
          exact ⟨fun a ha => Option.noConfusion ha, h⟩
        | some a =>
          dsimp only at h
          cases hpa : (a.parentHash == b.blockHash) with
          | false => rw [hpa] at h; simp at h
          | true =>
            rw [hpa, if_pos rfl] at h
            exact ⟨fun a2 ha2 => by cases ha2; exact beq_iff_eq.mp hpa, h⟩
      by_cases hz : fuel = 0
      · subst hz
        rw [if_pos rfl] at h
        by_cases hp : b.parentHash = txBlock.blockHash
        · rw [if_pos hp, Except.ok.injEq] at h
          subst h
          refine ⟨?_, b, rfl, by omega, hab⟩
          rw [List.chain'_cons]
          exact ⟨⟨by omega, hp⟩, List.chain'_singleton b⟩
        · rw [if_neg hp] at h
          exact Except.noConfusion h
      · rw [if_neg hz] at h
        cases hc : ((existing.head? == some txBlock)
            && chainVerified txBlock ((existing.drop 1).take fuel)
            && (((existing.drop 1).take fuel).length == fuel)
            && (match ((existing.drop 1).take fuel).getLast? with
                | some e => e.blockHash == b.parentHash
                | none => false)) with
        | true =>
          rw [hc, if_pos rfl, Except.ok.injEq] at h
          subst h
          simp only [Bool.and_eq_true, beq_iff_eq] at hc
          obtain ⟨⟨⟨hh, hv⟩, hlen⟩, hlast⟩ := hc
          cases hsl : ((existing.drop 1).take fuel).getLast? with
          | none => rw [hsl] at hlast; exact Bool.noConfusion hlast
          | some e =>
            rw [hsl] at hlast
            have hpar : e.blockHash = b.parentHash := by simpa using hlast
            have henum : e.blockNumber = txBlock.blockNumber + fuel := by
              have := chainVerified_getLast _ txBlock e hv hsl
              omega
            have hchainseg := chainVerified_chain _ txBlock hv
            constructor
            · rw [show txBlock :: ((existing.drop 1).take fuel ++ [b])
                  = (txBlock :: (existing.drop 1).take fuel) ++ [b] from rfl]
              rw [List.chain'_append]
              refine ⟨hchainseg, List.chain'_singleton b, ?_⟩
              intro x hx y hy
              rw [List.head?_cons, Option.mem_def, Option.some_inj] at hy
              subst hy
              have hxl : (txBlock :: (existing.drop 1).take fuel).getLast? = some e := by
                cases hseg : (existing.drop 1).take fuel with
                | nil =>
                  rw [hseg] at hlen
                  exact absurd hlen.symm hz
                | cons s0 ss =>
                  rw [hseg] at hsl
                  rw [List.getLast?_cons_cons, hsl]
              rw [hxl, Option.mem_def, Option.some_inj] at hx
              subst hx
              exact ⟨by omega, hpar.symm⟩
            · refine ⟨b, ?_, by omega, hab⟩
              rw [show txBlock :: ((existing.drop 1).take fuel ++ [b])
                  = (txBlock :: (existing.drop 1).take fuel) ++ [b] from rfl]
              exact List.getLast?_concat _
        | false =>
          rw [hc, if_neg Bool.false_ne_true] at h
          cases hrec : checkAndFillInGap fetch existing txBlock fuel (some b) with
          | error e => rw [hrec] at h; exact Except.noConfusion h
          | ok rest =>
            rw [hrec, Except.ok.injEq] at h
            subst h
            obtain ⟨hchain, lastE, hlastE, hlnum, hlab⟩ := ih (some b) rest hrec
            have hbl : b.parentHash = lastE.blockHash := hlab b rfl
            constructor
            · rw [show txBlock :: (rest ++ [b]) = (txBlock :: rest) ++ [b] from rfl]
              rw [List.chain'_append]
              refine ⟨hchain, List.chain'_singleton b, ?_⟩
              intro x hx y hy
              rw [List.head?_cons, Option.mem_def, Option.some_inj] at hy
              subst hy
              rw [hlastE, Option.mem_def, Option.some_inj] at hx
              subst hx
              exact ⟨by omega, hbl⟩
            · refine ⟨b, ?_, by omega, hab⟩
              rw [show txBlock :: (rest ++ [b]) = (txBlock :: rest) ++ [b] from rfl]
              exact List.getLast?_concat _

theorem build_merge (existing : List MinimalBlockInfo) (txBlock : MinimalBlockInfo)
    (d : Nat) (snapshot : List MinimalBlockInfo) (fetch : Nat → FetchResult)
    (hget : getByNumber snapshot txBlock.blockNumber = some txBlock) :
    buildConfirmationList existing txBlock d snapshot fetch =
      .ok { confirmations := snapshotWindow snapshot txBlock.blockNumber d,
            newFork := hasForkMismatch (snapshotWindow snapshot txBlock.blockNumber d)
              existing,
            confirmed :=
              decide ((snapshotWindow snapshot txBlock.blockNumber d).length ≥ d + 1),
            targetConfirmationCount := d } := by
  obtain ⟨x, hx⟩ := getLast_of_getByNumber snapshot txBlock.blockNumber txBlock hget
  simp [buildConfirmationList, hx, hget]

theorem build_disagree (existing : List MinimalBlockInfo) (txBlock entry : MinimalBlockInfo)
    (d : Nat) (snapshot : List MinimalBlockInfo) (fetch : Nat → FetchResult)
    (hget : getByNumber snapshot txBlock.blockNumber = some entry)
    (hdis : entry ≠ txBlock) :
    buildConfirmationList existing txBlock d snapshot fetch =
      (if d = 0 then
        .ok { confirmations := [txBlock], newFork := false, confirmed := true,
              targetConfirmationCount := d }
      else
        match getByNumber snapshot (txBlock.blockNumber + 1) with
        | some next =>
          if next.parentHash = txBlock.blockHash then
            .ok { confirmations := [txBlock, next], newFork := false, confirmed := false,
                  targetConfirmationCount := d }
          else
            .ok { confirmations := [txBlock], newFork := false, confirmed := false,
                  targetConfirmationCount := d }
        | none =>
          .ok { confirmations := [txBlock], newFork := false, confirmed := false,
                targetConfirmationCount := d }) := by
  obtain ⟨x, hx⟩ := getLast_of_getByNumber snapshot txBlock.blockNumber entry hget
  simp only [buildConfirmationList, hx, hget, if_neg hdis, Nat.beq_eq_true_eq]

theorem build_ahead (existing : List MinimalBlockInfo) (txBlock : MinimalBlockInfo)
    (d : Nat) (snapshot : List MinimalBlockInfo) (fetch : Nat → FetchResult)
    (lastBlock : MinimalBlockInfo)
    (hlast : snapshot.getLast? = some lastBlock)
    (hget : getByNumber snapshot txBlock.blockNumber = none)
    (hcmp : lastBlock.blockNumber < txBlock.blockNumber) :
    buildConfirmationList existing txBlock d snapshot fetch = .error .chainNotReady := by
  simp [buildConfirmationList, hlast, hget, hcmp]

theorem build_trusted (existing : List MinimalBlockInfo) (txBlock : MinimalBlockInfo)
    (d : Nat) (snapshot : List MinimalBlockInfo) (fetch : Nat → FetchResult)
    (lastBlock : MinimalBlockInfo)
    (hlast : snapshot.getLast? = some lastBlock)
    (hget : getByNumber snapshot txBlock.blockNumber = none)
    (hcmp : ¬ lastBlock.blockNumber < txBlock.blockNumber)
    (htr : trustedExisting existing snapshot txBlock d = true) :
    buildConfirmationList existing txBlock d snapshot fetch =
      .ok { confirmations := existing.take (d + 1),
            newFork := hasForkMismatch (existing.take (d + 1)) existing,
            confirmed := decide ((existing.take (d + 1)).length ≥ d + 1),
            targetConfirmationCount := d } := by
  simp [buildConfirmationList, hlast, hget, hcmp, htr]

theorem build_fillpath (existing : List MinimalBlockInfo) (txBlock : MinimalBlockInfo)
    (d : Nat) (snapshot : List MinimalBlockInfo) (fetch : Nat → FetchResult)
    (lastBlock : MinimalBlockInfo)
    (hlast : snapshot.getLast? = some lastBlock)
    (hget : getByNumber snapshot txBlock.blockNumber = none)
    (hcmp : ¬ lastBlock.blockNumber < txBlock.blockNumber)
    (htr : trustedExisting existing snapshot txBlock d = false) :
    buildConfirmationList existing txBlock d snapshot fetch =
      (match checkAndFillInGap fetch existing txBlock (gapFuel snapshot txBlock d)
          (canonicalRange snapshot txBlock d).head? with
      | .error e => .error e
      | .ok filled =>
        .ok { confirmations := txBlock :: filled ++ canonicalRange snapshot txBlock d,
              newFork :=
                hasForkMismatch (txBlock :: filled ++ canonicalRange snapshot txBlock d)
                  existing,
              confirmed :=
                decide ((txBlock :: filled
                  ++ canonicalRange snapshot txBlock d).length ≥ d + 1),
              targetConfirmationCount := d }) := by
  simp [buildConfirmationList, hlast, hget, hcmp, htr]

theorem build_ok_cases (existing : List MinimalBlockInfo) (txBlock : MinimalBlockInfo)
    (d : Nat) (snapshot : List MinimalBlockInfo) (fetch : Nat → FetchResult)
    (r : ConfirmationUpdateResult)
    (hr : buildConfirmationList existing txBlock d snapshot fetch = .ok r) :
    (getByNumber snapshot txBlock.blockNumber = some txBlock ∧
      r = { confirmations := snapshotWindow snapshot txBlock.blockNumber d,
            newFork := hasForkMismatch (snapshotWindow snapshot txBlock.blockNumber d)
              existing,
            confirmed :=
              decide ((snapshotWindow snapshot txBlock.blockNumber d).length ≥ d + 1),
            targetConfirmationCount := d }) ∨
    (∃ entry, getByNumber snapshot txBlock.blockNumber = some entry ∧ entry ≠ txBlock ∧
      r.newFork = false ∧ r.targetConfirmationCount = d ∧
      ((d = 0 ∧ r.confirmations = [txBlock] ∧ r.confirmed = true) ∨
       (d ≠ 0 ∧ r.confirmed = false ∧
         (r.confirmations = [txBlock] ∨
          ∃ next, getByNumber snapshot (txBlock.blockNumber + 1) = some next ∧
            next.parentHash = txBlock.blockHash ∧
            r.confirmations = [txBlock, next])))) ∨
    (getByNumber snapshot txBlock.blockNumber = none ∧
      trustedExisting existing snapshot txBlock d = true ∧
      r = { confirmations := existing.take (d + 1),
            newFork := hasForkMismatch (existing.take (d + 1)) existing,
            confirmed := decide ((existing.take (d + 1)).length ≥ d + 1),
            targetConfirmationCount := d }) ∨
    (getByNumber snapshot txBlock.blockNumber = none ∧
      trustedExisting existing snapshot txBlock d = false ∧
      ∃ filled, checkAndFillInGap fetch existing txBlock (gapFuel snapshot txBlock d)
          (canonicalRange snapshot txBlock d).head? = .ok filled ∧
      r = { confirmations := txBlock :: filled ++ canonicalRange snapshot txBlock d,
            newFork :=
              hasForkMismatch (txBlock :: filled ++ canonicalRange snapshot txBlock d)
                existing,
            confirmed :=
              decide ((txBlock :: filled
                ++ canonicalRange snapshot txBlock d).length ≥ d + 1),
            targetConfirmationCount := d }) := by
  cases hlast : snapshot.getLast? with
  | none =>
    rw [buildConfirmationList, hlast] at hr
    exact Except.noConfusion hr
  | some lastBlock =>
    cases hget : getByNumber snapshot txBlock.blockNumber with
    | some entry =>
      by_cases hdis : entry = txBlock
      · subst hdis
        rw [build_merge existing entry d snapshot fetch hget, Except.ok.injEq] at hr
        exact .inl ⟨rfl, hr.symm⟩
      · rw [build_disagree existing txBlock entry d snapshot fetch hget hdis] at hr
        refine .inr (.inl ⟨entry, rfl, hdis, ?_⟩)
        by_cases hd : d = 0
        · rw [if_pos hd] at hr
          cases hr
          exact ⟨rfl, rfl, .inl ⟨hd, rfl, rfl⟩⟩
        · rw [if_neg hd] at hr
          cases hnext : getByNumber snapshot (txBlock.blockNumber + 1) with
          | none =>
            rw [hnext] at hr
            dsimp only at hr
            cases hr
            exact ⟨rfl, rfl, .inr ⟨hd, rfl, .inl rfl⟩⟩
          | some next =>
            rw [hnext] at hr
            dsimp only at hr
            by_cases hp : next.parentHash = txBlock.blockHash
            · rw [if_pos hp] at hr
              cases hr
              exact ⟨rfl, rfl, .inr ⟨hd, rfl, .inr ⟨next, rfl, hp, rfl⟩⟩⟩
            · rw [if_neg hp] at hr
              cases hr
              exact ⟨rfl, rfl, .inr ⟨hd, rfl, .inl rfl⟩⟩
    | none =>
      by_cases hcmp : lastBlock.blockNumber < txBlock.blockNumber
      · rw [build_ahead existing txBlock d snapshot fetch lastBlock hlast hget hcmp] at hr
        exact Except.noConfusion hr
      · cases htr : trustedExisting existing snapshot txBlock d with
        | true =>
          rw [build_trusted existing txBlock d snapshot fetch lastBlock hlast hget hcmp htr,
            Except.ok.injEq] at hr
          exact .inr (.inr (.inl ⟨rfl, rfl, hr.symm⟩))
        | false =>
          rw [build_fillpath existing txBlock d snapshot fetch lastBlock hlast hget hcmp
            htr] at hr
          cases hfill : checkAndFillInGap fetch existing txBlock
              (gapFuel snapshot txBlock d) (canonicalRange snapshot txBlock d).head? with
          | error e => rw [hfill] at hr; exact Except.noConfusion hr
          | ok filled =>
            rw [hfill] at hr
            dsimp only at hr
            rw [Except.ok.injEq] at hr
            exact .inr (.inr (.inr ⟨rfl, rfl, filled, rfl, hr.symm⟩))

/-- C3: every confirmations list returned by a successful
buildConfirmationList call (against a well-formed canonical snapshot
and an honest block fetcher) is non-empty, starts at the resolved
transaction block, and satisfies adjacency: each successive entry's
number is the previous plus one and its parent hash is the previous
entry's block hash. -/
theorem c3_returned_list_wellformed
    (existing : List MinimalBlockInfo) (txBlock : MinimalBlockInfo) (d : Nat)
    (snapshot : List MinimalBlockInfo) (fetch : Nat → FetchResult)
    (r : ConfirmationUpdateResult)
    (hsnap : chainWellFormed snapshot)
    (hfetch : FetchHonest fetch)
    (hr : buildConfirmationList existing txBlock d snapshot fetch = .ok r) :
    r.confirmations ≠ [] ∧ r.confirmations.head? = some txBlock ∧
    ∀ i (h : i + 1 < r.confirmations.length),
      (r.confirmations.get ⟨i + 1, h⟩).blockNumber
          = (r.confirmations.get ⟨i, Nat.lt_of_succ_lt h⟩).blockNumber + 1 ∧
      (r.confirmations.get ⟨i + 1, h⟩).parentHash
          = (r.confirmations.get ⟨i, Nat.lt_of_succ_lt h⟩).blockHash := by
  suffices hs : r.confirmations ≠ [] ∧ r.confirmations.head? = some txBlock ∧
      chainWellFormed r.confirmations by
    exact ⟨hs.1, hs.2.1, (chainWellFormed_iff_get r.confirmations).mp hs.2.2⟩
  rcases build_ok_cases existing txBlock d snapshot fetch r hr with
    ⟨hget, rfl⟩ |
    ⟨entry, hget, hdis, hnf, htc, hsub⟩ |
    ⟨hget, htr, rfl⟩ |
    ⟨hget, htr, filled, hfill, rfl⟩
  · obtain ⟨t, hw⟩ := snapshotWindow_eq snapshot txBlock d hget
    exact ⟨by simp [hw], by simp [hw],
      snapshotWindow_wellFormed snapshot txBlock.blockNumber d hsnap⟩
  · rcases hsub with ⟨hd0, hconf, hc⟩ | ⟨hd, hconf, hconfs⟩
    · rw [hconf]
      exact ⟨by simp, rfl, by simp [chainWellFormed]⟩
    · rcases hconfs with hconf | ⟨next, hnext, hp, hconf⟩
      · rw [hconf]
        exact ⟨by simp, rfl, by simp [chainWellFormed]⟩
      · rw [hconf]
        have hnum := (getByNumber_spec snapshot (txBlock.blockNumber + 1) next hnext).1
        refine ⟨by simp, rfl, ?_⟩
        unfold chainWellFormed
        rw [List.chain'_cons]
        exact ⟨⟨hnum, hp⟩, List.chain'_singleton next⟩
  · simp only [trustedExisting, Bool.and_eq_true, beq_iff_eq] at htr
    obtain ⟨⟨⟨hh, hv⟩, -⟩, -⟩ := htr
    obtain ⟨rest, hrest⟩ := List.head?_eq_some_iff.mp hh
    rw [hrest] at hv
    simp only [List.drop_one, List.tail_cons] at hv
    have hchain : chainWellFormed (txBlock :: rest) := chainVerified_chain rest txBlock hv
    refine ⟨?_, ?_, ?_⟩
    · rw [hrest]
      simp
    · rw [hrest]
      simp
    · dsimp only
      rw [hrest]
      exact List.Chain'.prefix hchain ( List.take_prefix _ _)
  · obtain ⟨hchain, lastE, hlastE, hlnum, hab⟩ :=
      checkAndFillInGap_spec fetch existing txBlock hfetch _ _ filled hfill
    refine ⟨by simp, by simp, ?_⟩
    show chainWellFormed (txBlock :: filled ++ canonicalRange snapshot txBlock d)
    unfold chainWellFormed
    rw [show txBlock :: filled ++ canonicalRange snapshot txBlock d
        = (txBlock :: filled) ++ canonicalRange snapshot txBlock d from rfl]
    rw [List.chain'_append]
    refine ⟨hchain, canonicalRange_wellFormed snapshot txBlock d hsnap, ?_⟩
    intro x hx y hy
    rw [hlastE, Option.mem_def, Option.some_inj] at hx
    subst hx
    have hy2 : (canonicalRange snapshot txBlock d).head? = some y := Option.mem_def.mp hy
    have hcr := canonicalRange_head snapshot txBlock d y hy2
    have hgf : gapFuel snapshot txBlock d = y.blockNumber - 1 - txBlock.blockNumber := by
      unfold gapFuel
      rw [hy2]
    rw [hgf] at hlnum
    exact ⟨by omega, hab y hy2⟩

theorem c3_witness :
    ([⟨100, "h100", "h99"⟩, ⟨101, "h101", "h100"⟩] : List MinimalBlockInfo) ≠ [] ∧
    ([⟨100, "h100", "h99"⟩, ⟨101, "h101", "h100"⟩] : List MinimalBlockInfo).head?
        = some ⟨100, "h100", "h99"⟩ ∧
    ∀ i (h : i + 1 < ([⟨100, "h100", "h99"⟩, ⟨101, "h101", "h100"⟩] :
        List MinimalBlockInfo).length),
      (([⟨100, "h100", "h99"⟩, ⟨101, "h101", "h100"⟩] :
          List MinimalBlockInfo).get ⟨i + 1, h⟩).blockNumber
        = (([⟨100, "h100", "h99"⟩, ⟨101, "h101", "h100"⟩] :
          List MinimalBlockInfo).get ⟨i, Nat.lt_of_succ_lt h⟩).blockNumber + 1 ∧
      (([⟨100, "h100", "h99"⟩, ⟨101, "h101", "h100"⟩] :
          List MinimalBlockInfo).get ⟨i + 1, h⟩).parentHash
        = (([⟨100, "h100", "h99"⟩, ⟨101, "h101", "h100"⟩] :
          List MinimalBlockInfo).get ⟨i, Nat.lt_of_succ_lt h⟩).blockHash := by
  have hmain :=
    c3_returned_list_wellformed [] ⟨100, "h100", "h99"⟩ 1
      [⟨100, "h100", "h99"⟩, ⟨101, "h101", "h100"⟩] (fun _ => FetchResult.notFound)
      { confirmations := [⟨100, "h100", "h99"⟩, ⟨101, "h101", "h100"⟩], newFork := false,
        confirmed := true, targetConfirmationCount := 1 }
      (by decide) (fun n b hb => FetchResult.noConfusion hb) rfl
  exact hmain

/-- C1 (amended): on every successful buildConfirmationList call the
target count is echoed back; a zero target always yields a length-one
list that is confirmed; and `confirmed` equals the depth rule
(list length at least target plus one) on every path except the early
return taken when the snapshot's entry at the transaction block's
number disagrees with the transaction block, where `confirmed` is false
unless the target is zero. -/
theorem c1_confirmed_depth_rule
    (existing : List MinimalBlockInfo) (txBlock : MinimalBlockInfo) (d : Nat)
    (snapshot : List MinimalBlockInfo) (fetch : Nat → FetchResult)
    (r : ConfirmationUpdateResult)
    (hr : buildConfirmationList existing txBlock d snapshot fetch = .ok r) :
    r.targetConfirmationCount = d ∧
    (d = 0 → r.confirmations.length = 1 ∧ r.confirmed = true) ∧
    ((∀ entry, getByNumber snapshot txBlock.blockNumber = some entry → entry = txBlock) →
      r.confirmed = decide (r.confirmations.length ≥ d + 1)) ∧
    (∀ entry, getByNumber snapshot txBlock.blockNumber = some entry → entry ≠ txBlock →
      r.confirmed = (d == 0)) := by
  rcases build_ok_cases existing txBlock d snapshot fetch r hr with
    ⟨hget, rfl⟩ |
    ⟨entry, hget, hdis, hnf, htc, hsub⟩ |
    ⟨hget, htr, rfl⟩ |
    ⟨hget, htr, filled, hfill, rfl⟩
  · obtain ⟨t, hw⟩ := snapshotWindow_eq snapshot txBlock d hget
    refine ⟨rfl, ?_, fun _ => rfl, ?_⟩
    · rintro rfl
      constructor
      · show (snapshotWindow snapshot txBlock.blockNumber 0).length = 1
        rw [show snapshotWindow snapshot txBlock.blockNumber 0 = [txBlock] by
          rw [hw]; simp]
        rfl
      · show decide ((snapshotWindow snapshot txBlock.blockNumber 0).length ≥ 0 + 1) = true
        rw [show snapshotWindow snapshot txBlock.blockNumber 0 = [txBlock] by
          rw [hw]; simp]
        rfl
    · intro entry2 hentry2 hdis2
      rw [hget, Option.some_inj] at hentry2
      exact absurd hentry2.symm hdis2
  · refine ⟨htc, ?_, ?_, ?_⟩
    · intro hd0
      rcases hsub with ⟨-, hconf, hc⟩ | ⟨hd, -, -⟩
      · rw [hconf]
        exact ⟨rfl, hc⟩
      · exact absurd hd0 hd
    · intro hmerge
      exact absurd (hmerge entry hget) hdis
    · intro entry2 hentry2 hdis2
      rcases hsub with ⟨hd0, -, hc⟩ | ⟨hd, hc, -⟩
      · rw [hc, hd0]
        rfl
      · rw [hc]
        cases hdz : d == 0 with
        | true => exact absurd (Nat.beq_eq_true_eq d 0 ▸ hdz) hd
        | false => rfl
  · simp only [trustedExisting, Bool.and_eq_true, beq_iff_eq] at htr
    obtain ⟨⟨⟨hh, -⟩, -⟩, -⟩ := htr
    obtain ⟨rest, hrest⟩ := List.head?_eq_some_iff.mp hh
    refine ⟨rfl, ?_, fun _ => rfl, ?_⟩
    · rintro rfl
      rw [hrest]
      exact ⟨by simp, by simp⟩
    · intro entry2 hentry2
      rw [hget] at hentry2
      exact absurd hentry2 (Option.noConfusion)
  · refine ⟨rfl, ?_, fun _ => rfl, ?_⟩
    · rintro rfl
      have hcz := canonicalRange_zero snapshot txBlock
      have hgz : gapFuel snapshot txBlock 0 = 0 := by
        unfold gapFuel
        rw [hcz]
        rfl
      rw [hgz, hcz] at hfill
      simp only [List.head?_nil, checkAndFillInGap, Except.ok.injEq] at hfill
      subst hfill
      exact ⟨by simp [hcz], by simp [hcz]⟩
    · intro entry2 hentry2
      rw [hget] at hentry2
      exact absurd hentry2 (Option.noConfusion)

theorem c1_witness :
    ([⟨100, "h100", "h99"⟩] : List MinimalBlockInfo).length = 1 ∧ true = true :=
  (c1_confirmed_depth_rule [] ⟨100, "h100", "h99"⟩ 0 [⟨100, "h100", "h99"⟩]
    (fun _ => FetchResult.notFound)
    { confirmations := [⟨100, "h100", "h99"⟩], newFork := false, confirmed := true,
      targetConfirmationCount := 0 } rfl).2.1 rfl

/-- C1 counterexample: with target count 1, a well-formed two-entry
snapshot whose entry at the transaction block's number carries the same
hash but a different parent hash than the freshly resolved transaction
block, the call succeeds with a two-element list (length at least
target plus one) yet `confirmed` is false, contradicting the claimed
equivalence `confirmed == (length >= target + 1)`. -/
theorem c1_counterexample :
    buildConfirmationList [] ⟨1977, "h1977", "bad"⟩ 1
        [⟨1977, "h1977", "h1976"⟩, ⟨1978, "h1978", "h1977"⟩]
        (fun _ => FetchResult.notFound) =
      .ok { confirmations := [⟨1977, "h1977", "bad"⟩, ⟨1978, "h1978", "h1977"⟩],
            newFork := false, confirmed := false, targetConfirmationCount := 1 } ∧
    ([⟨1977, "h1977", "bad"⟩, ⟨1978, "h1978", "h1977"⟩] :
        List MinimalBlockInfo).length ≥ 1 + 1 :=
  ⟨rfl, by decide⟩

/-- C7: when the snapshot's entry at the transaction block's number
disagrees with the freshly resolved transaction block, the call
succeeds with a list of length at most two — the transaction block
followed by the snapshot's next entry exactly when that entry
parent-links to the transaction block and the target count is nonzero,
the transaction block alone otherwise — with `confirmed` false unless
the target count is zero, and `newFork` false. -/
theorem c7_disagreement_short_list
    (existing : List MinimalBlockInfo) (txBlock entry : MinimalBlockInfo) (d : Nat)
    (snapshot : List MinimalBlockInfo) (fetch : Nat → FetchResult)
    (hval : validateExistingConfirmations existing = .ok ())
    (hget : getByNumber snapshot txBlock.blockNumber = some entry)
    (hdis : entry ≠ txBlock) :
    ∃ r, buildConfirmationList existing txBlock d snapshot fetch = .ok r ∧
      r.confirmations.length ≤ 2 ∧ r.newFork = false ∧ r.confirmed = (d == 0) ∧
      (d ≠ 0 → r.confirmations =
        (match getByNumber snapshot (txBlock.blockNumber + 1) with
         | some next =>
           if next.parentHash = txBlock.blockHash then [txBlock, next] else [txBlock]
         | none => [txBlock])) ∧
      (d = 0 → r.confirmations = [txBlock]) := by
  have hbeq : (d ≠ 0) → false = (d == 0) := by
    intro hd
    cases hdz : d == 0 with
    | true => exact absurd (Nat.beq_eq_true_eq d 0 ▸ hdz) hd
    | false => rfl
  rw [build_disagree existing txBlock entry d snapshot fetch hget hdis]
  by_cases hd : d = 0
  · subst hd
    exact ⟨_, if_pos rfl, by simp, rfl, rfl, fun hnd => absurd rfl hnd, fun _ => rfl⟩
  · rw [if_neg hd]
    cases hnext : getByNumber snapshot (txBlock.blockNumber + 1) with
    | none =>
      exact ⟨_, rfl, by simp, rfl, hbeq hd, fun _ => rfl, fun h0 => absurd h0 hd⟩
    | some next =>
      by_cases hp : next.parentHash = txBlock.blockHash
      · simp only [if_pos hp]
        exact ⟨_, rfl, by simp, rfl, hbeq hd, fun _ => rfl, fun h0 => absurd h0 hd⟩
      · simp only [if_neg hp]
        exact ⟨_, rfl, by simp, rfl, hbeq hd, fun _ => rfl, fun h0 => absurd h0 hd⟩

theorem c7_witness :
    ∃ r, buildConfirmationList [] ⟨1977, "h1977", "bad"⟩ 5
        [⟨1977, "h1977", "h1976"⟩, ⟨1978, "h1978", "h1977"⟩]
        (fun _ => FetchResult.notFound) = .ok r ∧
      r.confirmations.length ≤ 2 ∧ r.newFork = false ∧ r.confirmed = ((5 : Nat) == 0) ∧
      ((5 : Nat) ≠ 0 → r.confirmations =
        (match getByNumber [⟨1977, "h1977", "h1976"⟩, ⟨1978, "h1978", "h1977"⟩]
            ((⟨1977, "h1977", "bad"⟩ : MinimalBlockInfo).blockNumber + 1) with
         | some next =>
           if next.parentHash = (⟨1977, "h1977", "bad"⟩ : MinimalBlockInfo).blockHash then
             [⟨1977, "h1977", "bad"⟩, next]
           else [⟨1977, "h1977", "bad"⟩]
         | none => [⟨1977, "h1977", "bad"⟩])) ∧
      ((5 : Nat) = 0 → r.confirmations = [⟨1977, "h1977", "bad"⟩]) :=
  c7_disagreement_short_list [] ⟨1977, "h1977", "bad"⟩ ⟨1977, "h1977", "h1976"⟩ 5
    [⟨1977, "h1977", "h1976"⟩, ⟨1978, "h1978", "h1977"⟩] (fun _ => FetchResult.notFound)
    rfl rfl (by decide)

/-- C2 (amended): on every successful buildConfirmationList call,
`newFork` is true exactly when some block of the returned confirmations
differs, at the same block number, from an entry of the caller's list
in block hash or in parent hash — except on the early return taken
when the snapshot's entry at the transaction block's number disagrees
with the transaction block, where `newFork` is always false. -/
theorem c2_newFork_characterization
    (existing : List MinimalBlockInfo) (txBlock : MinimalBlockInfo) (d : Nat)
    (snapshot : List MinimalBlockInfo) (fetch : Nat → FetchResult)
    (r : ConfirmationUpdateResult)
    (hr : buildConfirmationList existing txBlock d snapshot fetch = .ok r) :
    ((∀ entry, getByNumber snapshot txBlock.blockNumber = some entry → entry = txBlock) →
      (r.newFork = true ↔ ∃ b ∈ r.confirmations, ∃ e ∈ existing,
          b.blockNumber = e.blockNumber ∧
            (b.blockHash ≠ e.blockHash ∨ b.parentHash ≠ e.parentHash))) ∧
    (∀ entry, getByNumber snapshot txBlock.blockNumber = some entry → entry ≠ txBlock →
      r.newFork = false) := by
  rcases build_ok_cases existing txBlock d snapshot fetch r hr with
    ⟨hget, rfl⟩ |
    ⟨entry, hget, hdis, hnf, htc, hsub⟩ |
    ⟨hget, htr, rfl⟩ |
    ⟨hget, htr, filled, hfill, rfl⟩
  · refine ⟨fun _ => hasForkMismatch_iff _ existing, ?_⟩
    intro entry2 hentry2 hdis2
    rw [hget, Option.some_inj] at hentry2
    exact absurd hentry2.symm hdis2
  · exact ⟨fun hmerge => absurd (hmerge entry hget) hdis,
      fun entry2 hentry2 hdis2 => hnf⟩
  · refine ⟨fun _ => hasForkMismatch_iff _ existing, ?_⟩
    intro entry2 hentry2
    rw [hget] at hentry2
    exact absurd hentry2 (Option.noConfusion)
  · refine ⟨fun _ => hasForkMismatch_iff _ existing, ?_⟩
    intro entry2 hentry2
    rw [hget] at hentry2
    exact absurd hentry2 (Option.noConfusion)

theorem c2_witness :
    (true = true ↔ ∃ b ∈ ([⟨100, "h100", "h99"⟩] : List MinimalBlockInfo),
        ∃ e ∈ ([⟨100, "h100", "BAD"⟩] : List MinimalBlockInfo),
          b.blockNumber = e.blockNumber ∧
            (b.blockHash ≠ e.blockHash ∨ b.parentHash ≠ e.parentHash)) :=
  (c2_newFork_characterization [⟨100, "h100", "BAD"⟩] ⟨100, "h100", "h99"⟩ 0
      [⟨100, "h100", "h99"⟩] (fun _ => FetchResult.notFound)
      { confirmations := [⟨100, "h100", "h99"⟩], newFork := true, confirmed := true,
        targetConfirmationCount := 0 } rfl).1
    (by
      intro entry he
      have h2 : (some (⟨100, "h100", "h99"⟩ : MinimalBlockInfo)
            : Option MinimalBlockInfo) = some entry :=
        (show getByNumber [⟨100, "h100", "h99"⟩]
            ((⟨100, "h100", "h99"⟩ : MinimalBlockInfo).blockNumber)
          = some ⟨100, "h100", "h99"⟩ from rfl).symm.trans he
      exact (Option.some_inj.mp h2).symm)

/-- C2 counterexample: with a caller list whose entry at block 101
carries the correct block hash but a corrupted parent hash (the shape
of TestCompareAndUpdateConfirmationQueue_CorruptedExistingConfirmationDoNotAffectConfirmations),
the call succeeds with `newFork` true although no returned block
differs from the caller's entry at the same number by block hash —
refuting the claimed hash-only equivalence. -/
theorem c2_counterexample :
    buildConfirmationList
        [⟨100, "h100", "h99"⟩, ⟨101, "h101", "0xwrongparent"⟩] ⟨100, "h100", "h99"⟩ 5
        [⟨100, "h100", "h99"⟩, ⟨101, "h101", "h100"⟩, ⟨102, "h102", "h101"⟩,
         ⟨103, "h103", "h102"⟩, ⟨104, "h104", "h103"⟩, ⟨105, "h105", "h104"⟩]
        (fun _ => FetchResult.notFound) =
      .ok { confirmations :=
              [⟨100, "h100", "h99"⟩, ⟨101, "h101", "h100"⟩, ⟨102, "h102", "h101"⟩,
               ⟨103, "h103", "h102"⟩, ⟨104, "h104", "h103"⟩, ⟨105, "h105", "h104"⟩],
            newFork := true, confirmed := true, targetConfirmationCount := 5 } ∧
    (∀ b ∈ ([⟨100, "h100", "h99"⟩, ⟨101, "h101", "h100"⟩, ⟨102, "h102", "h101"⟩,
         ⟨103, "h103", "h102"⟩, ⟨104, "h104", "h103"⟩, ⟨105, "h105", "h104"⟩] :
           List MinimalBlockInfo),
      ∀ e ∈ ([⟨100, "h100", "h99"⟩, ⟨101, "h101", "0xwrongparent"⟩] :
           List MinimalBlockInfo),
        b.blockNumber = e.blockNumber → b.blockHash = e.blockHash) :=
  ⟨rfl, by decide⟩

/-- C5 (amended): a block-not-found answer during gap-fill is fatal —
the call fails with the block-not-available error (FF23011) and
returns no result — exactly as an RPC transport error during gap-fill
fails the whole call with the propagated fetch failure; gap-fill
happens only below the canonical snapshot's coverage, starting at the
target number when the canonical range is empty. -/
theorem c5_gapfill_notfound_fatal
    (existing : List MinimalBlockInfo) (txBlock : MinimalBlockInfo) (d : Nat)
    (snapshot : List MinimalBlockInfo) (fetch : Nat → FetchResult)
    (lastBlock : MinimalBlockInfo)
    (hget : getByNumber snapshot txBlock.blockNumber = none)
    (hlast : snapshot.getLast? = some lastBlock)
    (hbehind : ¬ lastBlock.blockNumber < txBlock.blockNumber)
    (htr : trustedExisting existing snapshot txBlock d = false)
    (hcr : canonicalRange snapshot txBlock d = [])
    (hd : d ≠ 0) :
    (fetch (txBlock.blockNumber + d) = .notFound →
      buildConfirmationList existing txBlock d snapshot fetch
        = .error .blockNotAvailable) ∧
    (∀ m, fetch (txBlock.blockNumber + d) = .rpcError m →
      buildConfirmationList existing txBlock d snapshot fetch
        = .error (.fetchFailure m)) := by
  have hgf : gapFuel snapshot txBlock d = d := by
    unfold gapFuel
    rw [hcr]
    rfl
  obtain ⟨k, hk⟩ : ∃ k, d = k + 1 := ⟨d - 1, by omega⟩
  have harg : txBlock.blockNumber + k + 1 = txBlock.blockNumber + d := by omega
  constructor
  · intro hnf
    have hnf' : fetch (txBlock.blockNumber + k + 1) = FetchResult.notFound := by
      rw [harg]; exact hnf
    have hfill : checkAndFillInGap fetch existing txBlock d
        (([] : List MinimalBlockInfo).head?) = .error .blockNotAvailable := by
      rw [hk]
      simp only [List.head?_nil, checkAndFillInGap]
      rw [hnf']
    rw [build_fillpath existing txBlock d snapshot fetch lastBlock hlast hget hbehind htr,
      hgf, hcr, hfill]
  · intro m hm
    have hm' : fetch (txBlock.blockNumber + k + 1) = FetchResult.rpcError m := by
      rw [harg]; exact hm
    have hfill : checkAndFillInGap fetch existing txBlock d
        (([] : List MinimalBlockInfo).head?) = .error (.fetchFailure m) := by
      rw [hk]
      simp only [List.head?_nil, checkAndFillInGap]
      rw [hm']
    rw [build_fillpath existing txBlock d snapshot fetch lastBlock hlast hget hbehind htr,
      hgf, hcr, hfill]

theorem c5_witness :
    buildConfirmationList
        [⟨100, "h100", "h99"⟩, ⟨101, "h101", "h100"⟩, ⟨102, "h102", "0xblockwrong"⟩]
        ⟨100, "h100", "h99"⟩ 5 [⟨150, "h150", "h149"⟩] (fun _ => FetchResult.notFound) =
      .error .blockNotAvailable :=
  (c5_gapfill_notfound_fatal
    [⟨100, "h100", "h99"⟩, ⟨101, "h101", "h100"⟩, ⟨102, "h102", "0xblockwrong"⟩]
    ⟨100, "h100", "h99"⟩ 5 [⟨150, "h150", "h149"⟩] (fun _ => FetchResult.notFound)
    ⟨150, "h150", "h149"⟩ rfl rfl (by decide) rfl rfl (by decide)).1 rfl

/-- C5 counterexample: at the shape of
TestCompareAndUpdateConfirmationQueue_NilBlockInfo (canonical chain at
block 150 only, caller list broken at 102, target 5), a not-found
answer for block 105 makes the whole call fail with the
block-not-available error and no result — it does not return the list
assembled so far without error as the claim states; a transport error
at the same point propagates as a fetch failure. -/
theorem c5_counterexample :
    buildConfirmationList
        [⟨100, "h100", "h99"⟩, ⟨101, "h101", "h100"⟩, ⟨102, "h102", "0xblockwrong"⟩]
        ⟨100, "h100", "h99"⟩ 5 [⟨150, "h150", "h149"⟩] (fun _ => FetchResult.notFound) =
      .error .blockNotAvailable ∧
    buildConfirmationList
        [⟨100, "h100", "h99"⟩, ⟨101, "h101", "h100"⟩, ⟨102, "h102", "0xblockwrong"⟩]
        ⟨100, "h100", "h99"⟩ 5 [⟨150, "h150", "h149"⟩] (fun _ => FetchResult.rpcError "pop")
      = .error (.fetchFailure "pop") :=
  ⟨rfl, rfl⟩

